import Mathlib

/-!
Verification development for the Lettabot Matrix adapter.

The definitions below are shallow embeddings of the E2EE verification state
machine (src/matrix/verification.ts), the decrypt-retry pipeline, the key
backup restore step and the proactive-verification routine of the Matrix
adapter (the main adapter implementation file).  JavaScript `Map`s keyed by
strings are modelled as association lists in insertion order; asynchronous
calls that can reject are modelled as `Except Unit` valued environment
fields; `try`/`catch` blocks of the source are modelled by explicit matches
on those outcomes at the same places the source has them.
-/

set_option maxHeartbeats 1000000

namespace LettabotMatrix

instance {ε α : Type} [DecidableEq ε] [DecidableEq α] : DecidableEq (Except ε α) :=
  fun a b =>
  match a, b with
  | .ok x, .ok y =>
    if h : x = y then isTrue (by rw [h]) else isFalse (by intro hc; injection hc; contradiction)
  | .error x, .error y =>
    if h : x = y then isTrue (by rw [h]) else isFalse (by intro hc; injection hc; contradiction)
  | .ok _, .error _ => isFalse (by intro hc; exact Except.noConfusion hc)
  | .error _, .ok _ => isFalse (by intro hc; exact Except.noConfusion hc)

/-- Verification phases of the SDK protocol, in the order used by
`phaseName` in src/matrix/verification.ts: Unsent, Requested, Ready,
Started, Cancelled, Done. -/
inductive Phase where
  | unsent
  | requested
  | ready
  | started
  | cancelled
  | done
  deriving DecidableEq, Repr

/-- A phase is terminal when the driver treats the stored session as stale
(the two phases tested at lines 95-96 of src/matrix/verification.ts). -/
def Phase.isTerminal : Phase → Bool
  | .cancelled => true
  | .done => true
  | _ => false

section JsMap

variable {α : Type}

/-- Model of JavaScript `Map.get`. -/
def jsGet (m : List (String × α)) (k : String) : Option α :=
  (m.find? (fun p => p.1 == k)).map (·.2)

/-- Model of JavaScript `Map.delete`. -/
def jsDelete (m : List (String × α)) (k : String) : List (String × α) :=
  m.filter (fun p => !(p.1 == k))

/-- Model of JavaScript `Map.set`: replaces the value in place when the key
is present, appends otherwise. -/
def jsSet (m : List (String × α)) (k : String) (v : α) : List (String × α) :=
  if (m.find? (fun p => p.1 == k)).isSome then
    m.map (fun p => if p.1 == k then (k, v) else p)
  else m ++ [(k, v)]

/-- Number of entries stored under a key. -/
def countKey (m : List (String × α)) (k : String) : Nat :=
  (m.filter (fun p => p.1 == k)).length

/-- The keys of the association list are pairwise distinct (always true for
a JavaScript `Map`). -/
def nodupKeys (m : List (String × α)) : Prop :=
  m.Pairwise (fun p q => p.1 ≠ q.1)

theorem countKey_nil (k : String) : countKey ([] : List (String × α)) k = 0 := rfl

theorem countKey_append (m₁ m₂ : List (String × α)) (k : String) :
    countKey (m₁ ++ m₂) k = countKey m₁ k + countKey m₂ k := by
  simp [countKey, List.filter_append]

theorem countKey_eq_zero_iff (m : List (String × α)) (k : String) :
    countKey m k = 0 ↔ ∀ p ∈ m, p.1 ≠ k := by
  simp [countKey, List.length_eq_zero, List.filter_eq_nil]

theorem jsGet_eq_none_iff (m : List (String × α)) (k : String) :
    jsGet m k = none ↔ ∀ p ∈ m, p.1 ≠ k := by
  simp [jsGet, List.find?_eq_none]

theorem jsGet_eq_none_of_countKey (m : List (String × α)) (k : String)
    (h : countKey m k = 0) : jsGet m k = none := by
  rw [jsGet_eq_none_iff]
  exact (countKey_eq_zero_iff m k).mp h

theorem countKey_jsDelete_self (m : List (String × α)) (k : String) :
    countKey (jsDelete m k) k = 0 := by
  rw [countKey_eq_zero_iff]
  intro p hp
  simp only [jsDelete, List.mem_filter] at hp
  simpa using hp.2

theorem jsDelete_mem_of_mem {m : List (String × α)} {p : String × α}
    (hp : p ∈ jsDelete m k) : p ∈ m := by
  simp only [jsDelete, List.mem_filter] at hp
  exact hp.1

theorem nodupKeys_jsDelete (m : List (String × α)) (k : String)
    (h : nodupKeys m) : nodupKeys (jsDelete m k) :=
  List.Pairwise.sublist (List.filter_sublist m) h

theorem jsGet_cons (p : String × α) (m : List (String × α)) (k : String) :
    jsGet (p :: m) k = if p.1 == k then some p.2 else jsGet m k := by
  cases h : p.1 == k <;> simp [jsGet, List.find?, h]

theorem jsDelete_cons (p : String × α) (m : List (String × α)) (k : String) :
    jsDelete (p :: m) k =
      if p.1 == k then jsDelete m k else p :: jsDelete m k := by
  cases h : p.1 == k <;> simp [jsDelete, h]

theorem jsGet_jsDelete_ne (m : List (String × α)) (k k' : String) (hne : k' ≠ k) :
    jsGet (jsDelete m k) k' = jsGet m k' := by
  induction m with
  | nil => rfl
  | cons p m ih =>
    rw [jsDelete_cons, jsGet_cons]
    by_cases hpk : p.1 = k
    · have h1 : (p.1 == k) = true := beq_iff_eq.mpr hpk
      have h2 : (p.1 == k') = false := by
        rw [beq_eq_false_iff_ne, hpk]
        exact fun h => hne h.symm
      simp [h1, h2, ih]
    · have h1 : (p.1 == k) = false := by
        rw [beq_eq_false_iff_ne]
        exact hpk
      simp [h1, jsGet_cons, ih]

theorem jsSet_of_absent (m : List (String × α)) (k : String) (v : α)
    (h : countKey m k = 0) : jsSet m k v = m ++ [(k, v)] := by
  have hfind : m.find? (fun p => p.1 == k) = none := by
    rw [List.find?_eq_none]
    intro p hp
    have := (countKey_eq_zero_iff m k).mp h p hp
    simpa using this
  simp [jsSet, hfind]

theorem countKey_singleton_self (k : String) (v : α) :
    countKey [(k, v)] k = 1 := by
  simp [countKey]

theorem jsGet_append_right (m : List (String × α)) (k : String) (v : α)
    (h : countKey m k = 0) : jsGet (m ++ [(k, v)]) k = some v := by
  induction m with
  | nil => simp [jsGet, List.find?]
  | cons p m ih =>
    have hp : p.1 ≠ k := (countKey_eq_zero_iff (p :: m) k).mp h p (by simp)
    have hm : countKey m k = 0 := by
      have := (countKey_eq_zero_iff (p :: m) k).mp h
      exact (countKey_eq_zero_iff m k).mpr fun q hq => this q (by simp [hq])
    rw [List.cons_append, jsGet_cons]
    simp only [beq_iff_eq, hp, if_false]
    exact ih hm

theorem jsGet_append_left (m : List (String × α)) (k k' : String) (v : α)
    (hne : k ≠ k') : jsGet (m ++ [(k', v)]) k = jsGet m k := by
  induction m with
  | nil =>
    simp only [List.nil_append, jsGet_cons]
    have : ¬ (k' == k) = true := by
      rw [beq_iff_eq]
      exact fun h => hne h.symm
    simp [Bool.not_eq_true] at this
    simp [this, jsGet]
  | cons p m ih =>
    rw [List.cons_append, jsGet_cons, jsGet_cons, ih]

theorem nodupKeys_append_singleton (m : List (String × α)) (k : String) (v : α)
    (hm : nodupKeys m) (h : countKey m k = 0) : nodupKeys (m ++ [(k, v)]) := by
  rw [nodupKeys, List.pairwise_append]
  refine ⟨hm, List.pairwise_singleton _ _, ?_⟩
  intro p hp q hq
  simp only [List.mem_singleton] at hq
  subst hq
  exact (countKey_eq_zero_iff m k).mp h p hp

end JsMap

/-- The mutable fields of an SDK `VerificationRequest` that
`handleVerificationRequest` inspects. -/
structure VerificationRequestT where
  otherUserId : String
  otherDeviceId : Option String
  phase : Phase
  hasVerifier : Bool
  deriving DecidableEq, Repr

/-- An entry of the `activeVerifications` map (interface
`ActiveVerification` in src/matrix/verification.ts).  The verifier handle
and the SAS callbacks object are modelled by presence flags. -/
structure ActiveVerification where
  userId : String
  deviceId : String
  verifierPresent : Bool
  request : VerificationRequestT
  sasCallbacksPresent : Bool
  deriving DecidableEq, Repr

/-- The map key built at line 89: `otherUserId|otherDeviceId`, with
`"unknown"` substituted for a missing device id (line 88). -/
def verifKey (u : String) (d : Option String) : String := u ++ "|" ++ d.getD "unknown"

/-- The continuation `handleVerificationRequest` launches after storing the
entry (lines 125-134). -/
inductive PhaseAction where
  | acceptAndStart
  | startSAS
  | attachListeners
  | noAction
  deriving DecidableEq, Repr

/-- The activeVerifications map. -/
abbrev VMap := List (String × ActiveVerification)

/-- The entry stored at lines 116-122 for a newly observed request. -/
def freshEntry (r : VerificationRequestT) : ActiveVerification :=
  { userId := r.otherUserId
    deviceId := r.otherDeviceId.getD "unknown"
    verifierPresent := false
    request := r
    sasCallbacksPresent := false }

/-- Shallow embedding of
`MatrixVerificationHandler.handleVerificationRequest`
(src/matrix/verification.ts lines 86-135).  Returns the updated map and
the continuation chosen for the request. -/
def handleVerificationRequest (m : VMap) (r : VerificationRequestT) :
    VMap × PhaseAction :=
  let key := verifKey r.otherUserId r.otherDeviceId
  let cleared : Option VMap :=
    match jsGet m key with
    | some existing =>
      if existing.request.phase.isTerminal then some (jsDelete m key)
      else if r.phase = .requested then some (jsDelete m key)
      else none
    | none => some m
  match cleared with
  | none => (m, .noAction)
  | some m1 =>
    let m2 := jsSet m1 key (freshEntry r)
    let act :=
      if r.phase = .requested then PhaseAction.acceptAndStart
      else if r.phase = .ready then PhaseAction.startSAS
      else if r.phase = .started ∧ r.hasVerifier = true then PhaseAction.attachListeners
      else PhaseAction.noAction
    (m2, act)

/-- C1: for every (peer user, peer device) pair the active-session map of
the verification handler keeps at most one entry, and when
`handleVerificationRequest` observes a request whose key has a stale
(terminal-phase) session, or a Requested-phase request while an older
session is still pending, the old entry is deleted and exactly one fresh
entry replaces it; entries under other keys are untouched and the map
stays duplicate-free. -/
theorem c1_single_active_session (m : VMap) (r : VerificationRequestT)
    (hm : nodupKeys m)
    (hcase : (∃ ex, jsGet m (verifKey r.otherUserId r.otherDeviceId) = some ex ∧
                (ex.request.phase.isTerminal = true ∨ r.phase = .requested)) ∨
             jsGet m (verifKey r.otherUserId r.otherDeviceId) = none) :
    countKey (handleVerificationRequest m r).1 (verifKey r.otherUserId r.otherDeviceId) = 1 ∧
    jsGet (handleVerificationRequest m r).1 (verifKey r.otherUserId r.otherDeviceId) =
      some (freshEntry r) ∧
    nodupKeys (handleVerificationRequest m r).1 ∧
    (∀ k, k ≠ verifKey r.otherUserId r.otherDeviceId →
      jsGet (handleVerificationRequest m r).1 k = jsGet m k) := by
  set key := verifKey r.otherUserId r.otherDeviceId with hkey
  rcases hcase with ⟨ex, hex, hterm⟩ | hnone
  · have hres : (handleVerificationRequest m r).1 = jsDelete m key ++ [(key, freshEntry r)] := by
      have hz : countKey (jsDelete m key) key = 0 := countKey_jsDelete_self m key
      rcases hterm with ht | hreq
      · simp only [handleVerificationRequest, ← hkey, hex, ht, if_true]
        exact jsSet_of_absent _ _ _ hz
      · simp only [handleVerificationRequest, ← hkey, hex, hreq]
        rcases hb : ex.request.phase.isTerminal with _ | _ <;>
          simp [hb, jsSet_of_absent _ _ _ hz]
    have hz : countKey (jsDelete m key) key = 0 := countKey_jsDelete_self m key
    refine ⟨?_, ?_, ?_, ?_⟩
    · rw [hres, countKey_append, hz, countKey_singleton_self]
    · rw [hres]
      exact jsGet_append_right _ _ _ hz
    · rw [hres]
      exact nodupKeys_append_singleton _ _ _ (nodupKeys_jsDelete m key hm) hz
    · intro k hk
      rw [hres, jsGet_append_left _ _ _ _ hk, jsGet_jsDelete_ne _ _ _ hk]
  · have hz : countKey m key = 0 := by
      rw [countKey_eq_zero_iff]
      exact (jsGet_eq_none_iff m key).mp hnone
    have hres : (handleVerificationRequest m r).1 = m ++ [(key, freshEntry r)] := by
      simp only [handleVerificationRequest, ← hkey, hnone]
      exact jsSet_of_absent _ _ _ hz
    refine ⟨?_, ?_, ?_, ?_⟩
    · rw [hres, countKey_append, hz, countKey_singleton_self]
    · rw [hres]
      exact jsGet_append_right _ _ _ hz
    · rw [hres]
      exact nodupKeys_append_singleton _ _ _ hm hz
    · intro k hk
      rw [hres, jsGet_append_left _ _ _ _ hk]

/-- Witness for C1 at a concrete map: a cancelled session for
`@peer:hs|DEV1` is superseded by a fresh Requested-phase session. -/
theorem c1_single_active_session_witness :
    countKey (handleVerificationRequest
        [("@peer:hs|DEV1", freshEntry ⟨"@peer:hs", some "DEV1", .cancelled, false⟩)]
        ⟨"@peer:hs", some "DEV1", .requested, false⟩).1 "@peer:hs|DEV1" = 1 := by
  have h := c1_single_active_session
      [("@peer:hs|DEV1", freshEntry ⟨"@peer:hs", some "DEV1", .cancelled, false⟩)]
      ⟨"@peer:hs", some "DEV1", .requested, false⟩
      (by simp [nodupKeys])
      (Or.inl ⟨freshEntry ⟨"@peer:hs", some "DEV1", .cancelled, false⟩,
        by decide, Or.inr rfl⟩)
  exact h.1

/-- Outcomes of the awaited SDK calls made by the verification driver for
one request.  `Except Unit` models a promise that can reject. -/
structure VerifEnv where
  acceptOutcome : Except Unit Unit
  phaseAfterAccept : Phase
  cryptoPresent : Bool
  otherUserPresent : Bool
  deviceKeysOutcome : Except Unit Unit
  startVerificationOutcome : Except Unit Bool
  verifyOutcome : Except Unit Unit
  confirmOutcome : Except Unit Unit
  deriving Repr

/-- Driver state for a single verification request: the request phase, the
presence of `request.verifier`, whether the onChange listener registered by
`acceptAndStartSAS` is still attached, and counters for
`request.startVerification` calls, `attachVerifierListeners` calls and
`onError` callbacks. -/
structure SASState where
  phase : Phase
  verifierPresent : Bool
  changeListenerOn : Bool
  startCalls : Nat
  attachCalls : Nat
  errorCalls : Nat
  deriving DecidableEq, Repr

/-- The try-block of `startSASVerification`
(src/matrix/verification.ts lines 179-230): fetch the peer's device keys,
attach listeners if a verifier already exists, otherwise call
`request.startVerification("m.sas.v1")`, store the verifier, attach
listeners and run `verifier.verify()`.  The second component is true when
the block threw (a rejected await, or the explicit throw when
startVerification returns undefined). -/
def startSASAttempt (env : VerifEnv) (s : SASState) : SASState × Bool :=
  match (if env.cryptoPresent ∧ env.otherUserPresent then env.deviceKeysOutcome
         else Except.ok ()) with
  | .error _ => (s, true)
  | .ok _ =>
    if s.verifierPresent then ({ s with attachCalls := s.attachCalls + 1 }, false)
    else
      match env.startVerificationOutcome with
      | .error _ => ({ s with startCalls := s.startCalls + 1 }, true)
      | .ok false => ({ s with startCalls := s.startCalls + 1 }, true)
      | .ok true =>
        let s1 := { s with startCalls := s.startCalls + 1
                           verifierPresent := true
                           attachCalls := s.attachCalls + 1 }
        match env.verifyOutcome with
        | .error _ => (s1, true)
        | .ok _ => (s1, false)

/-- `startSASVerification` with its catch (lines 231-234): a throw from the
body is caught and surfaced through `onError`; the second component is
whether an exception escapes the handler (always false: the catch spans
the whole body). -/
def startSASVerificationH (env : VerifEnv) (s : SASState) : SASState × Bool :=
  match startSASAttempt env s with
  | (s', true) => ({ s' with errorCalls := s'.errorCalls + 1 }, false)
  | (s', false) => (s', false)

/-- The state after `startSASVerification` returns. -/
def startSASVerification (env : VerifEnv) (s : SASState) : SASState :=
  (startSASVerificationH env s).1

/-- The try-block of `acceptAndStartSAS` (lines 138-171): await
`request.accept()`; if the phase is already Ready, start SAS at once;
otherwise register the onChange listener (the 1-second timeout poll is
also scheduled there and is modelled as a `ReadyFire.timeoutFire` event). -/
def acceptAndStartSASAttempt (env : VerifEnv) (s : SASState) : SASState × Bool :=
  match env.acceptOutcome with
  | .error _ => (s, true)
  | .ok _ =>
    let s1 := { s with phase := env.phaseAfterAccept }
    if s1.phase = .ready then (startSASVerification env s1, false)
    else ({ s1 with changeListenerOn := true }, false)

/-- `acceptAndStartSAS` with its catch (lines 172-175). -/
def acceptAndStartSASH (env : VerifEnv) (s : SASState) : SASState × Bool :=
  match acceptAndStartSASAttempt env s with
  | (s', true) => ({ s' with errorCalls := s'.errorCalls + 1 }, false)
  | (s', false) => (s', false)

/-- The state after `acceptAndStartSAS` returns. -/
def acceptAndStartSAS (env : VerifEnv) (s : SASState) : SASState :=
  (acceptAndStartSASH env s).1

/-- The two ways the Ready transition of a request can be observed by the
driver: the `change` event notification, or the 1-second timeout poll. -/
inductive ReadyFire where
  | changeFire
  | timeoutFire
  deriving DecidableEq, Repr

/-- One firing.  `changeFire` runs the onChange closure of lines 152-161
(only while the listener is attached; it detaches the listener before
starting SAS); `timeoutFire` runs the poll body of lines 165-171. -/
def fireReady (env : VerifEnv) (s : SASState) (f : ReadyFire) : SASState :=
  match f with
  | .changeFire =>
    if s.changeListenerOn then
      if s.phase = .ready then
        startSASVerification env { s with changeListenerOn := false }
      else if s.phase = .done then { s with changeListenerOn := false }
      else s
    else s
  | .timeoutFire =>
    if s.phase = .ready then
      startSASVerification env { s with changeListenerOn := false }
    else s

/-- A sequence of firings applied in order (single-threaded run-to-completion
execution of each handler). -/
def applyFires (env : VerifEnv) (s : SASState) (fs : List ReadyFire) : SASState :=
  fs.foldl (fireReady env) s

/-- All awaited calls of the accept/start path resolve successfully. -/
def VerifEnv.allOk (env : VerifEnv) : Prop :=
  env.acceptOutcome = .ok () ∧ env.deviceKeysOutcome = .ok () ∧
  env.startVerificationOutcome = .ok true ∧ env.verifyOutcome = .ok ()

theorem verifEnv_fetch_ok (env : VerifEnv) (hdk : env.deviceKeysOutcome = .ok ()) :
    (if env.cryptoPresent ∧ env.otherUserPresent then env.deviceKeysOutcome
     else Except.ok ()) = Except.ok () := by
  by_cases h : env.cryptoPresent ∧ env.otherUserPresent <;> simp [h, hdk]

theorem startSAS_no_verifier (env : VerifEnv) (s : SASState) (henv : env.allOk)
    (hv : s.verifierPresent = false) :
    startSASVerification env s =
      { s with startCalls := s.startCalls + 1
               verifierPresent := true
               attachCalls := s.attachCalls + 1 } := by
  obtain ⟨-, hdk, hsv, hvf⟩ := henv
  simp [startSASVerification, startSASVerificationH, startSASAttempt,
    verifEnv_fetch_ok env hdk, hv, hsv, hvf]

theorem startSAS_with_verifier (env : VerifEnv) (s : SASState) (henv : env.allOk)
    (hv : s.verifierPresent = true) :
    startSASVerification env s = { s with attachCalls := s.attachCalls + 1 } := by
  obtain ⟨-, hdk, hsv, hvf⟩ := henv
  simp [startSASVerification, startSASVerificationH, startSASAttempt,
    verifEnv_fetch_ok env hdk, hv]

/-- The invariant reached after the first observed Ready firing: the
verifier exists, exactly one initiation happened, the phase is still
Ready. -/
def oneStarted (s : SASState) : Prop :=
  s.phase = .ready ∧ s.verifierPresent = true ∧ s.startCalls = 1

theorem fireReady_preserves_oneStarted (env : VerifEnv) (s : SASState)
    (henv : env.allOk) (h : oneStarted s) (f : ReadyFire) :
    oneStarted (fireReady env s f) := by
  obtain ⟨hp, hv, hc⟩ := h
  have key : ∀ t : SASState, oneStarted t → oneStarted (startSASVerification env t) := by
    intro t ht
    rw [startSAS_with_verifier env t henv ht.2.1]
    exact ⟨ht.1, ht.2.1, ht.2.2⟩
  cases f with
  | changeFire =>
    cases hl : s.changeListenerOn with
    | false =>
      simp only [fireReady, hl, Bool.false_eq_true, if_false]
      exact ⟨hp, hv, hc⟩
    | true =>
      have heq : fireReady env s .changeFire =
          startSASVerification env { s with changeListenerOn := false } := by
        simp [fireReady, hl, hp]
      rw [heq]
      exact key _ ⟨hp, hv, hc⟩
  | timeoutFire =>
    have heq : fireReady env s .timeoutFire =
        startSASVerification env { s with changeListenerOn := false } := by
      simp [fireReady, hp]
    rw [heq]
    exact key _ ⟨hp, hv, hc⟩

theorem applyFires_preserves_oneStarted (env : VerifEnv) (henv : env.allOk)
    (fs : List ReadyFire) (s : SASState) (h : oneStarted s) :
    oneStarted (applyFires env s fs) := by
  induction fs generalizing s with
  | nil => exact h
  | cons f fs ih =>
    exact ih _ (fireReady_preserves_oneStarted env s henv h f)

theorem fireReady_first (env : VerifEnv) (henv : env.allOk) (f : ReadyFire)
    (a e : Nat) :
    oneStarted (fireReady env ⟨.ready, false, true, 0, a, e⟩ f) := by
  have h0 : startSASVerification env ⟨.ready, false, false, 0, a, e⟩ =
      { phase := .ready, verifierPresent := true, changeListenerOn := false,
        startCalls := 1, attachCalls := a + 1, errorCalls := e } := by
    have := startSAS_no_verifier env ⟨.ready, false, false, 0, a, e⟩ henv rfl
    simpa using this
  cases f with
  | changeFire => simp [fireReady, h0, oneStarted]
  | timeoutFire => simp [fireReady, h0, oneStarted]

/-- C2: once a verification request accepted by the bot reaches the Ready
phase, any non-empty sequence of firings of the change notification and
of the 1-second timeout poll — in particular both firing for the same
transition, in either order — produces exactly one SAS key-exchange
initiation (`request.startVerification` call); every firing after the
first attaches listeners only and never re-initiates. -/
theorem c2_ready_transition_idempotent (env : VerifEnv) (henv : env.allOk)
    (haccept : env.phaseAfterAccept = .requested)
    (fs : List ReadyFire) (hfs : fs ≠ []) :
    (applyFires env
      { acceptAndStartSAS env ⟨.requested, false, false, 0, 0, 0⟩ with
        phase := Phase.ready } fs).startCalls = 1 := by
  have hacc : acceptAndStartSAS env ⟨.requested, false, false, 0, 0, 0⟩ =
      ⟨.requested, false, true, 0, 0, 0⟩ := by
    obtain ⟨ha, -, -, -⟩ := henv
    simp [acceptAndStartSAS, acceptAndStartSASH, acceptAndStartSASAttempt, ha, haccept]
  rw [hacc]
  cases fs with
  | nil => exact absurd rfl hfs
  | cons f fs =>
    have h1 : oneStarted (fireReady env ⟨.ready, false, true, 0, 0, 0⟩ f) :=
      fireReady_first env henv f 0 0
    have h2 := applyFires_preserves_oneStarted env henv fs _ h1
    exact h2.2.2

/-- Witness for C2: both the change notification and the timeout poll fire
for the same Ready transition in a fully successful environment. -/
theorem c2_ready_transition_idempotent_witness :
    (applyFires ⟨.ok (), .requested, true, true, .ok (), .ok true, .ok (), .ok ()⟩
      { acceptAndStartSAS ⟨.ok (), .requested, true, true, .ok (), .ok true, .ok (), .ok ()⟩
          ⟨.requested, false, false, 0, 0, 0⟩ with phase := Phase.ready }
      [.changeFire, .timeoutFire]).startCalls = 1 :=
  c2_ready_transition_idempotent
    ⟨.ok (), .requested, true, true, .ok (), .ok true, .ok (), .ok ()⟩
    ⟨rfl, rfl, rfl, rfl⟩ rfl [.changeFire, .timeoutFire] (by decide)

/-- Events observed by the verifier listeners attached in
`attachVerifierListeners` (src/matrix/verification.ts lines 237-295) for one
session, together with the firing of the auto-confirm timer scheduled at
lines 266-268. -/
inductive VEvent where
  | showSas
  | verifierCancel
  | requestDone
  | requestCancelled
  | timerFire
  deriving DecidableEq, Repr

/-- Per-session confirm state: whether the session key is still in the
active map, whether the SAS callbacks were stored on the entry, and the
times at which `sasCallbacks.confirm()` was invoked. -/
structure ConfirmState where
  sessionPresent : Bool
  sasStored : Bool
  confirmTimes : List Nat
  deriving DecidableEq, Repr

/-- One listener firing at a given time.  `showSas` stores the callbacks on
the map entry when it is still present (lines 258-261); the cancel and
phase-change listeners delete the entry (lines 274, 287, 291);
`timerFire` runs `confirmVerification` (lines 297-312), which confirms only
when the entry is still present and holds SAS callbacks. -/
def confirmStep (s : ConfirmState) (te : Nat × VEvent) : ConfirmState :=
  match te.2 with
  | .showSas => if s.sessionPresent then { s with sasStored := true } else s
  | .verifierCancel => { s with sessionPresent := false }
  | .requestDone => { s with sessionPresent := false }
  | .requestCancelled => { s with sessionPresent := false }
  | .timerFire =>
    if s.sessionPresent ∧ s.sasStored then
      { s with confirmTimes := s.confirmTimes ++ [te.1] }
    else s

/-- A trace of listener firings applied in order. -/
def applyConfTrace (s : ConfirmState) (tr : List (Nat × VEvent)) : ConfirmState :=
  tr.foldl confirmStep s

/-- The state right after `handleVerificationRequest` stored the session. -/
def confirmInit : ConfirmState := ⟨true, false, []⟩

theorem confirmTimes_const (l : List (Nat × VEvent)) (s : ConfirmState)
    (h : VEvent.timerFire ∉ l.map Prod.snd) :
    (applyConfTrace s l).confirmTimes = s.confirmTimes := by
  induction l generalizing s with
  | nil => rfl
  | cons te l ih =>
    simp only [List.map_cons, List.mem_cons, not_or] at h
    have hstep : (confirmStep s te).confirmTimes = s.confirmTimes := by
      cases hv : te.2 <;> simp [confirmStep, hv] at h ⊢
      split <;> rfl
    rw [applyConfTrace, List.foldl_cons, ← applyConfTrace, ih _ h.2, hstep]

theorem sessionAbsent_persists (l : List (Nat × VEvent)) (s : ConfirmState)
    (h : s.sessionPresent = false) :
    (applyConfTrace s l).sessionPresent = false := by
  induction l generalizing s with
  | nil => exact h
  | cons te l ih =>
    rw [applyConfTrace, List.foldl_cons, ← applyConfTrace]
    refine ih _ ?_
    cases hv : te.2 <;> simp [confirmStep, hv, h]

theorem removal_clears_session (l : List (Nat × VEvent)) (s : ConfirmState)
    (h : VEvent.verifierCancel ∈ l.map Prod.snd ∨
         VEvent.requestCancelled ∈ l.map Prod.snd ∨
         VEvent.requestDone ∈ l.map Prod.snd) :
    (applyConfTrace s l).sessionPresent = false := by
  induction l generalizing s with
  | nil => simp at h
  | cons te l ih =>
    rw [applyConfTrace, List.foldl_cons, ← applyConfTrace]
    by_cases hrem : te.2 = .verifierCancel ∨ te.2 = .requestCancelled ∨ te.2 = .requestDone
    · have hstep : (confirmStep s te).sessionPresent = false := by
        rcases hrem with hv | hv | hv <;> simp [confirmStep, hv]
      exact sessionAbsent_persists l _ hstep
    · push_neg at hrem
      obtain ⟨hn1, hn2, hn3⟩ := hrem
      have h' : VEvent.verifierCancel ∈ l.map Prod.snd ∨
          VEvent.requestCancelled ∈ l.map Prod.snd ∨
          VEvent.requestDone ∈ l.map Prod.snd := by
        rcases h with h | h | h <;> simp only [List.map_cons, List.mem_cons] at h
        · rcases h with h | h
          · exact absurd h.symm (by simpa [eq_comm] using hn1)
          · exact Or.inl h
        · rcases h with h | h
          · exact absurd h.symm (by simpa [eq_comm] using hn2)
          · exact Or.inr (Or.inl h)
        · rcases h with h | h
          · exact absurd h.symm (by simpa [eq_comm] using hn3)
          · exact Or.inr (Or.inr h)
      exact ih _ h'

/-- C7: in any run where the SAS values are surfaced at time `t0` and the
single auto-confirm timer scheduled by the show-sas listener fires at
`t0 + 5000` (the fixed 5-second delay), the cryptographic MAC
(`sasCallbacks.confirm()`) is sent at most once, never before
`t0 + 5000`, and not at all when the session was already removed from the
active map (cancelled or completed) before the timer fired. -/
theorem c7_auto_confirm_once (pre post : List (Nat × VEvent)) (t0 : Nat)
    (hshow : (t0, VEvent.showSas) ∈ pre)
    (h1 : VEvent.timerFire ∉ pre.map Prod.snd)
    (h2 : VEvent.timerFire ∉ post.map Prod.snd) :
    (applyConfTrace confirmInit
        (pre ++ (t0 + 5000, VEvent.timerFire) :: post)).confirmTimes.length ≤ 1 ∧
    (∀ t ∈ (applyConfTrace confirmInit
        (pre ++ (t0 + 5000, VEvent.timerFire) :: post)).confirmTimes, t0 + 5000 ≤ t) ∧
    ((VEvent.verifierCancel ∈ pre.map Prod.snd ∨
      VEvent.requestCancelled ∈ pre.map Prod.snd ∨
      VEvent.requestDone ∈ pre.map Prod.snd) →
      (applyConfTrace confirmInit
        (pre ++ (t0 + 5000, VEvent.timerFire) :: post)).confirmTimes = []) := by
  have hsplit : applyConfTrace confirmInit (pre ++ (t0 + 5000, VEvent.timerFire) :: post) =
      applyConfTrace (confirmStep (applyConfTrace confirmInit pre)
        (t0 + 5000, VEvent.timerFire)) post := by
    simp [applyConfTrace, List.foldl_append]
  have hpre : (applyConfTrace confirmInit pre).confirmTimes = [] :=
    confirmTimes_const pre confirmInit h1
  have htimer : (confirmStep (applyConfTrace confirmInit pre)
      (t0 + 5000, VEvent.timerFire)).confirmTimes = [] ∨
      (confirmStep (applyConfTrace confirmInit pre)
      (t0 + 5000, VEvent.timerFire)).confirmTimes = [t0 + 5000] := by
    simp only [confirmStep]
    split
    · right
      rw [hpre]
      rfl
    · left
      exact hpre
  have hfin : (applyConfTrace confirmInit
      (pre ++ (t0 + 5000, VEvent.timerFire) :: post)).confirmTimes = [] ∨
      (applyConfTrace confirmInit
      (pre ++ (t0 + 5000, VEvent.timerFire) :: post)).confirmTimes = [t0 + 5000] := by
    rw [hsplit, confirmTimes_const post _ h2]
    exact htimer
  refine ⟨?_, ?_, ?_⟩
  · rcases hfin with h | h <;> simp [h]
  · intro t ht
    rcases hfin with h | h <;> rw [h] at ht
    · simp at ht
    · simp at ht
      omega
  · intro hrem
    have habs : (applyConfTrace confirmInit pre).sessionPresent = false :=
      removal_clears_session pre confirmInit hrem
    have hstep : (confirmStep (applyConfTrace confirmInit pre)
        (t0 + 5000, VEvent.timerFire)).confirmTimes = [] := by
      simp [confirmStep, habs, hpre]
    rw [hsplit, confirmTimes_const post _ h2, hstep]

/-- Witness for C7 at a concrete trace: SAS shown at time 0, timer fires at
5000, confirm happens exactly once at time 5000. -/
theorem c7_auto_confirm_once_witness :
    (applyConfTrace confirmInit
        ([(0, VEvent.showSas)] ++ (0 + 5000, VEvent.timerFire) :: [])).confirmTimes.length ≤ 1 ∧
    (∀ t ∈ (applyConfTrace confirmInit
        ([(0, VEvent.showSas)] ++ (0 + 5000, VEvent.timerFire) :: [])).confirmTimes,
      0 + 5000 ≤ t) ∧
    ((VEvent.verifierCancel ∈ ([(0, VEvent.showSas)] : List (Nat × VEvent)).map Prod.snd ∨
      VEvent.requestCancelled ∈ ([(0, VEvent.showSas)] : List (Nat × VEvent)).map Prod.snd ∨
      VEvent.requestDone ∈ ([(0, VEvent.showSas)] : List (Nat × VEvent)).map Prod.snd) →
      (applyConfTrace confirmInit
        ([(0, VEvent.showSas)] ++ (0 + 5000, VEvent.timerFire) :: [])).confirmTimes = []) :=
  c7_auto_confirm_once [(0, VEvent.showSas)] [] 0 (by decide) (by decide) (by decide)

/-- Event content fields read by the adapter (`content.msgtype`,
`content.body`, and the encrypted-envelope fields used by
`requestRoomKey`). -/
structure ContentT where
  msgtype : Option String
  body : Option String
  senderKey : Option String
  sessionId : Option String
  algorithm : Option String
  deriving DecidableEq, Repr

/-- A timeline event as the adapter observes it.  `rawContent` is the
payload carried by the event itself (`event.event.content`); the decrypted
payload lives in the environment (see `AdapterEnv.clear`), matching the
SDK where `getClearContent()` reads the decryption result. -/
structure MEvent where
  eventId : String
  eventType : String
  sender : Option String
  roomId : String
  ts : Nat
  rawContent : ContentT
  deriving DecidableEq, Repr

/-- The room fields read by the message handler (`room.roomId`,
`room.name`, and the joined-member count used by `isDirectMessage`). -/
structure RoomT where
  roomId : String
  name : String
  joinedCount : Nat
  deriving DecidableEq, Repr

/-- The `InboundMessage` built by `handleTextMessage` (message handler,
lines 93-108). -/
structure InboundMessage where
  channel : String
  chatId : String
  userId : String
  userName : String
  userHandle : String
  messageId : Option String
  text : String
  timestamp : Nat
  isGroup : Bool
  groupName : Option String
  deriving DecidableEq, Repr

/-- Environment of the adapter: the SDK state readable through accessors
and the outcomes of the awaited collaborator calls. -/
structure AdapterEnv where
  ourUserId : Option String
  clear : String → Option ContentT
  getRoom : String → Option RoomT
  selfChatMode : Bool
  dmPolicy : String
  allowedUsers : List String
  isUserAllowedOutcome : String → Except Unit Bool
  onCommandPresent : Bool
  onCommandOutcome : String → Except Unit (Option String)
  sendMessageOutcome : String → Except Unit Unit
  upsertPairingOutcome : String → Except Unit (Option String × Bool)
  onMessagePresent : Bool
  onMessageOutcome : Except Unit Unit
  audioOutcome : Except Unit Unit
  imageOutcome : Except Unit Unit
  reactionOutcome : Except Unit Unit

/-- `event.getClearContent()`: the decryption result, when present. -/
def getClearContent (env : AdapterEnv) (e : MEvent) : Option ContentT :=
  env.clear e.eventId

/-- `event.getContent()`: the SDK returns the decrypted payload when the
event has been decrypted and the raw payload otherwise. -/
def getContent (env : AdapterEnv) (e : MEvent) : ContentT :=
  (env.clear e.eventId).getD e.rawContent

/-- JavaScript-style whitespace test used by the `trim` model. -/
def isWsp (c : Char) : Bool := c == ' ' || c == '\t' || c == '\n' || c == '\r'

/-- Model of `String.prototype.trim`, written over the character list so
that concrete instances evaluate inside the kernel. -/
def strTrim (s : String) : String :=
  ⟨((s.data.dropWhile isWsp).reverse.dropWhile isWsp).reverse⟩

/-- Model of `String.prototype.startsWith`. -/
def strStarts (s p : String) : Bool := s.data.take p.data.length == p.data

/-- Model of `String.prototype.slice(1)`. -/
def strDropOne (s : String) : String := ⟨s.data.drop 1⟩

/-- `extractDisplayName` (message handler lines 156-160): the regex
`^@([^:]+):` captures the local part of an `@user:server` id; on no match
the id itself is returned. -/
def extractDisplayName (u : String) : String :=
  match u.data with
  | '@' :: rest =>
    let localPart := rest.takeWhile (fun c => !(c == ':'))
    if localPart.length = rest.length then u
    else if localPart.isEmpty then u
    else ⟨localPart⟩
  | _ => u

/-- `isDirectMessage` (message handler lines 148-151). -/
def isDirectMessage (room : RoomT) : Bool := room.joinedCount == 2

/-- `checkAccess` (message handler lines 114-129). -/
def checkAccess (env : AdapterEnv) (userId : String) : Except Unit String :=
  if env.dmPolicy = "open" then .ok "allowed"
  else match env.isUserAllowedOutcome userId with
    | .error er => .error er
    | .ok true => .ok "allowed"
    | .ok false => .ok (if env.dmPolicy = "allowlist" then "blocked" else "pairing")

/-- `handleCommand` (message handler lines 134-143). -/
def handleCommand (env : AdapterEnv) (command : String) : Except Unit (Option String) :=
  if env.onCommandPresent = false then .ok none
  else env.onCommandOutcome (strTrim (strDropOne command))

/-- The `InboundMessage` built at message-handler lines 93-106. -/
def mkInbound (room : RoomT) (e : MEvent) (sender body : String) : InboundMessage :=
  { channel := "matrix"
    chatId := room.roomId
    userId := sender
    userName := extractDisplayName sender
    userHandle := sender
    messageId := if e.eventId = "" then none else some e.eventId
    text := body
    timestamp := e.ts
    isGroup := !(isDirectMessage room)
    groupName := if isDirectMessage room then none else some room.name }

/-- Shallow embedding of `handleTextMessage` (message handler lines
30-109).  An `.error` result is a rejected promise propagating to the
caller; `.ok none` means no message is forwarded. -/
def handleTextMessage (env : AdapterEnv) (room : RoomT) (e : MEvent)
    (ourUserId : String) : Except Unit (Option InboundMessage) :=
  match e.sender, (getContent env e).body with
  | some sender, some body =>
    if sender = "" ∨ body = "" then .ok none
    else if sender = ourUserId then .ok none
    else if env.selfChatMode = false ∧ sender = ourUserId then .ok none
    else
      let afterCommand : Except Unit Bool :=
        if strStarts body "/" then
          match handleCommand env body with
          | .error er => .error er
          | .ok (some _) =>
            match env.sendMessageOutcome room.roomId with
            | .error er => .error er
            | .ok _ => .ok true
          | .ok none => .ok false
        else .ok false
      match afterCommand with
      | .error er => .error er
      | .ok true => .ok none
      | .ok false =>
        match checkAccess env sender with
        | .error er => .error er
        | .ok access =>
          if access = "blocked" then
            match env.sendMessageOutcome room.roomId with
            | .error er => .error er
            | .ok _ => .ok none
          else if access = "pairing" then
            match env.upsertPairingOutcome sender with
            | .error er => .error er
            | .ok (none, _) =>
              match env.sendMessageOutcome room.roomId with
              | .error er => .error er
              | .ok _ => .ok none
            | .ok (some _, created) =>
              if created then
                match env.sendMessageOutcome room.roomId with
                | .error er => .error er
                | .ok _ => .ok none
              else .ok none
          else .ok (some (mkInbound room e sender body))
  | _, _ => .ok none

/-- Shallow embedding of `MatrixAdapter.handleMessageEvent` (adapter lines
1055-1096): classify by the msgtype of the decrypted-or-raw content and
run the matching sub-handler.  The `.ok` value is the `InboundMessage`
handed to the `onMessage` callback, if any. -/
def handleMessageEvent (env : AdapterEnv) (e : MEvent) (room : RoomT) :
    Except Unit (Option InboundMessage) :=
  match env.ourUserId with
  | none => .ok none
  | some ourUserId =>
    let msgtype := (getContent env e).msgtype
    if msgtype = some "m.text" ∨ msgtype = some "m.notice" then
      match handleTextMessage env room e ourUserId with
      | .error er => .error er
      | .ok none => .ok none
      | .ok (some result) =>
        if env.onMessagePresent then
          match env.onMessageOutcome with
          | .error er => .error er
          | .ok _ => .ok (some result)
        else .ok none
    else if msgtype = some "m.audio" then
      match env.audioOutcome with
      | .error er => .error er
      | .ok _ => .ok none
    else if msgtype = some "m.image" then
      match env.imageOutcome with
      | .error er => .error er
      | .ok _ => .ok none
    else .ok none

/-- The pendingEncryptedEvents map. -/
abbrev PMap := List (String × MEvent)

/-- Record of one `handleMessageEvent` dispatch performed by the retry
sweep or the timeline handler: the event, the room it was dispatched to,
whether the dispatch threw (and was caught), and the message forwarded to
`onMessage`. -/
structure DispatchRec where
  eventId : String
  roomId : String
  threw : Bool
  forwarded : Option InboundMessage
  deriving DecidableEq, Repr

/-- The dispatch record produced by `await this.handleMessageEvent(event,
room)`. -/
def mkDispatch (env : AdapterEnv) (e : MEvent) (room : RoomT) : DispatchRec :=
  match handleMessageEvent env e room with
  | .ok r => ⟨e.eventId, room.roomId, false, r⟩
  | .error _ => ⟨e.eventId, room.roomId, true, none⟩

/-- One iteration of the retry loop of `retryPendingDecryptions` (adapter
lines 437-457): re-read the clear content; when present and the room is
known, dispatch through `handleMessageEvent`; reinsert the entry when the
content is still absent or the dispatch threw (the per-entry catch). -/
def sweepStep (env : AdapterEnv) (acc : PMap × List DispatchRec)
    (p : String × MEvent) : PMap × List DispatchRec :=
  match env.clear p.2.eventId with
  | none => (jsSet acc.1 p.1 p.2, acc.2)
  | some _ =>
    match env.getRoom p.2.roomId with
    | none => acc
    | some room =>
      match handleMessageEvent env p.2 room with
      | .ok _ => (acc.1, acc.2 ++ [mkDispatch env p.2 room])
      | .error _ => (jsSet acc.1 p.1 p.2, acc.2 ++ [mkDispatch env p.2 room])

/-- The entries one retry iteration reinserts into the live set. -/
def retryReinserts (env : AdapterEnv) (p : String × MEvent) : PMap :=
  match env.clear p.2.eventId with
  | none => [p]
  | some _ =>
    match env.getRoom p.2.roomId with
    | none => []
    | some room =>
      match handleMessageEvent env p.2 room with
      | .ok _ => []
      | .error _ => [p]

/-- The dispatches one retry iteration performs. -/
def retryDispatches (env : AdapterEnv) (p : String × MEvent) : List DispatchRec :=
  match env.clear p.2.eventId with
  | none => []
  | some _ =>
    match env.getRoom p.2.roomId with
    | none => []
    | some room => [mkDispatch env p.2 room]

/-- Shallow embedding of `MatrixAdapter.retryPendingDecryptions` (adapter
lines 430-469): early-return on an empty pending set; otherwise snapshot
the set, clear it, retry every snapshotted entry, then unconditionally
drop entries older than the 5-minute retention window (measured from the
original event timestamp). -/
def retryPendingDecryptions (env : AdapterEnv) (now : Nat) (pending : PMap) :
    PMap × List DispatchRec :=
  if pending.isEmpty then (pending, [])
  else
    let r := pending.foldl (sweepStep env) ([], [])
    (r.1.filter (fun q => decide (now - q.2.ts ≤ 300000)), r.2)

theorem sweepStep_char (env : AdapterEnv) (acc : PMap × List DispatchRec)
    (p : String × MEvent) (h : countKey acc.1 p.1 = 0) :
    sweepStep env acc p =
      (acc.1 ++ retryReinserts env p, acc.2 ++ retryDispatches env p) := by
  rcases acc with ⟨a1, a2⟩
  simp only [sweepStep, retryReinserts, retryDispatches]
  rcases hc : env.clear p.2.eventId with _ | c
  · simp [hc, jsSet_of_absent a1 p.1 p.2 h]
  · rcases hr : env.getRoom p.2.roomId with _ | room
    · simp [hc, hr]
    · rcases hm : handleMessageEvent env p.2 room with er | r
      · simp [hc, hr, hm, jsSet_of_absent a1 p.1 p.2 h]
      · simp [hc, hr, hm]

theorem retryReinserts_sublist (env : AdapterEnv) (p : String × MEvent) :
    retryReinserts env p = [] ∨ retryReinserts env p = [p] := by
  rcases hc : env.clear p.2.eventId with _ | c
  · right; simp [retryReinserts, hc]
  · rcases hr : env.getRoom p.2.roomId with _ | room
    · left; simp [retryReinserts, hc, hr]
    · rcases hm : handleMessageEvent env p.2 room with er | r
      · right; simp [retryReinserts, hc, hr, hm]
      · left; simp [retryReinserts, hc, hr, hm]

theorem sweep_foldl_char (env : AdapterEnv) (l : PMap) :
    ∀ (acc : PMap × List DispatchRec), nodupKeys l →
    (∀ p ∈ l, countKey acc.1 p.1 = 0) →
    l.foldl (sweepStep env) acc =
      (acc.1 ++ l.flatMap (retryReinserts env),
       acc.2 ++ l.flatMap (retryDispatches env)) := by
  induction l with
  | nil => intro acc _ _; simp
  | cons p l ih =>
    intro acc hnodup hfree
    have hp : countKey acc.1 p.1 = 0 := hfree p (by simp)
    rw [List.foldl_cons, sweepStep_char env acc p hp]
    have hnodup' : nodupKeys l := (List.pairwise_cons.mp hnodup).2
    have hfree' : ∀ q ∈ l, countKey (acc.1 ++ retryReinserts env p) q.1 = 0 := by
      intro q hq
      rw [countKey_append]
      have h1 : countKey acc.1 q.1 = 0 := hfree q (by simp [hq])
      have h2 : countKey (retryReinserts env p) q.1 = 0 := by
        rcases retryReinserts_sublist env p with h | h <;> rw [h]
        · rfl
        · have hne : p.1 ≠ q.1 := (List.pairwise_cons.mp hnodup).1 q hq
          rw [countKey_eq_zero_iff]
          intro x hx
          rw [List.mem_singleton] at hx
          subst hx
          exact hne
      omega
    rw [ih _ hnodup' hfree']
    simp

/-- Characterization of a sweep on a non-empty duplicate-free pending set:
the new live set is exactly the reinserted entries that survive the
retention filter, and the dispatch list collects the per-entry
dispatches in snapshot order. -/
theorem retryPendingDecryptions_char (env : AdapterEnv) (now : Nat)
    (pending : PMap) (hnodup : nodupKeys pending) (hne : pending ≠ []) :
    retryPendingDecryptions env now pending =
      ((pending.flatMap (retryReinserts env)).filter
          (fun q => decide (now - q.2.ts ≤ 300000)),
        pending.flatMap (retryDispatches env)) := by
  have hisEmpty : pending.isEmpty = false := by
    cases pending with
    | nil => exact absurd rfl hne
    | cons p l => rfl
  have hchar := sweep_foldl_char env pending ([], []) hnodup (by intro p _; rfl)
  simp only [retryPendingDecryptions, hisEmpty, Bool.false_eq_true, if_false]
  rw [hchar]
  simp

/-- Adapter state touched by the timeline handler. -/
structure TLState where
  initialSyncDone : Bool
  pending : PMap
  onceListeners : List String
  deriving DecidableEq, Repr

/-- Result of one timeline-handler run: the new state, the
`handleMessageEvent` dispatches performed, whether `requestRoomKey` was
invoked, and whether an exception escaped the handler. -/
structure TLOut where
  state : TLState
  dispatched : List DispatchRec
  keyRequested : Bool
  escaped : Bool
  deriving DecidableEq, Repr

/-- The own-sender guard at adapter line 497 (`event.getSender() ===
this.client?.getUserId()`): true exactly when both sides are present and
equal (getSender() yields undefined and getUserId() yields null when
absent, which never compare equal with strict equality). -/
def isOwnSender (env : AdapterEnv) (e : MEvent) : Bool :=
  match e.sender, env.ourUserId with
  | some s, some u => s == u
  | _, _ => false

/-- Shallow embedding of the RoomEvent.Timeline handler installed by
`setupEventHandlers` (adapter lines 488-598): skip non-encrypted events
during initial sync, skip the bot's own events, skip events without a
room; an encrypted event without clear content registers the one-shot
Event.decrypted listener and requests the room key (its promise carries a
`.catch`), then returns; otherwise the event (with an encrypted event
re-tagged as m.room.message when its clear content is present) runs
through the try-block: verification requests are left to the verification
handler, room-key events trigger a retry sweep, room messages are
dispatched through `handleMessageEvent`, and any throw inside the block
is caught at lines 595-597. -/
def timelineHandler (env : AdapterEnv) (now : Nat) (st : TLState) (e : MEvent)
    (room : Option RoomT) (toStart : Bool) : TLOut :=
  if e.eventType ≠ "m.room.encrypted" ∧ (toStart = true ∨ st.initialSyncDone = false) then
    ⟨st, [], false, false⟩
  else if isOwnSender env e then ⟨st, [], false, false⟩
  else
    match room with
    | none => ⟨st, [], false, false⟩
    | some r =>
      if e.eventType = "m.room.encrypted" ∧ (getClearContent env e).isNone then
        ⟨{ st with onceListeners := st.onceListeners ++ [e.eventId] }, [], true, false⟩
      else
        let effType := if e.eventType = "m.room.encrypted" then "m.room.message"
                       else e.eventType
        if effType = "m.key.verification.request" then ⟨st, [], false, false⟩
        else if effType = "m.room_key" ∨ effType = "m.forwarded_room_key" then
          let sw := retryPendingDecryptions env now st.pending
          ⟨{ st with pending := sw.1 }, sw.2, false, false⟩
        else if effType = "m.room.message" then ⟨st, [mkDispatch env e r], false, false⟩
        else ⟨st, [], false, false⟩

/-- The one-shot Event.decrypted listener registered at adapter lines
526-536 for an encrypted event that had no clear content at receipt: when
the SDK decrypts the event after a key arrives, the listener fires once
and dispatches the event through `handleMessageEvent` — independently of
the pending set. -/
def fireDecrypted (env : AdapterEnv) (st : TLState) (e : MEvent) :
    TLState × List DispatchRec :=
  if e.eventId ∈ st.onceListeners then
    let st' := { st with onceListeners := st.onceListeners.erase e.eventId }
    match getClearContent env e with
    | some _ =>
      match env.getRoom e.roomId with
      | none => (st', [])
      | some room => (st', [mkDispatch env e room])
    | none => (st', [])
  else (st, [])

theorem mkDispatch_eventId (env : AdapterEnv) (e : MEvent) (room : RoomT) :
    (mkDispatch env e room).eventId = e.eventId := by
  cases hm : handleMessageEvent env e room <;> simp [mkDispatch, hm]

theorem mem_flatMap_reinserts (env : AdapterEnv) (pending : PMap)
    (p : String × MEvent) :
    p ∈ pending.flatMap (retryReinserts env) ↔
      p ∈ pending ∧ retryReinserts env p = [p] := by
  constructor
  · intro h
    rw [List.mem_flatMap] at h
    obtain ⟨q, hq, hpq⟩ := h
    rcases retryReinserts_sublist env q with h0 | h0 <;> rw [h0] at hpq
    · simp at hpq
    · rw [List.mem_singleton] at hpq
      subst hpq
      exact ⟨hq, h0⟩
  · intro h
    rw [List.mem_flatMap]
    exact ⟨p, h.1, by rw [h.2]; simp⟩

theorem mem_flatMap_dispatches (env : AdapterEnv) (pending : PMap)
    (d : DispatchRec) (h : d ∈ pending.flatMap (retryDispatches env)) :
    ∃ q ∈ pending, ∃ c room, env.clear q.2.eventId = some c ∧
      env.getRoom q.2.roomId = some room ∧ d = mkDispatch env q.2 room := by
  rw [List.mem_flatMap] at h
  obtain ⟨q, hq, hdq⟩ := h
  rcases hc : env.clear q.2.eventId with _ | c
  · rw [retryDispatches, hc] at hdq
    simp at hdq
  · rcases hr : env.getRoom q.2.roomId with _ | room
    · rw [retryDispatches, hc, hr] at hdq
      simp at hdq
    · rw [retryDispatches, hc, hr] at hdq
      rw [List.mem_singleton] at hdq
      exact ⟨q, hq, c, room, hc, hr, hdq⟩

theorem nodupKeys_entry_unique {m : PMap} (hnodup : nodupKeys m)
    {p q : String × MEvent} (hp : p ∈ m) (hq : q ∈ m) (hk : p.1 = q.1) :
    p = q := by
  induction m with
  | nil => simp at hp
  | cons a l ih =>
    obtain ⟨ha, hl⟩ := List.pairwise_cons.mp hnodup
    rcases List.mem_cons.mp hp with hp1 | hp1 <;>
      rcases List.mem_cons.mp hq with hq1 | hq1
    · rw [hp1, hq1]
    · subst hp1
      exact absurd hk (ha q hq1)
    · subst hq1
      exact absurd hk.symm (ha p hp1)
    · exact ih hl hp1 hq1

theorem mem_dispatches_of_entry (env : AdapterEnv) (pending : PMap)
    (p : String × MEvent) (hp : p ∈ pending) (room : RoomT)
    (hr : env.getRoom p.2.roomId = some room) (c : ContentT)
    (hc : env.clear p.2.eventId = some c) :
    mkDispatch env p.2 room ∈ pending.flatMap (retryDispatches env) := by
  rw [List.mem_flatMap]
  refine ⟨p, hp, ?_⟩
  rw [retryDispatches, hc, hr]
  simp

/-- C3 concrete event: an encrypted message received at timestamp 0 whose
group key never arrives before the retention window ends. -/
def c3evt : MEvent := ⟨"e1", "m.room.encrypted", some "@alice:hs", "r1", 0,
  ⟨none, none, some "sk", some "sess", some "alg"⟩⟩

def c3room : RoomT := ⟨"r1", "room one", 2⟩

/-- C3 environment at sweep time: no key has arrived, nothing decrypts. -/
def c3envMiss : AdapterEnv :=
  { ourUserId := some "@bot:hs"
    clear := fun _ => none
    getRoom := fun rid => if rid = "r1" then some c3room else none
    selfChatMode := true
    dmPolicy := "open"
    allowedUsers := []
    isUserAllowedOutcome := fun _ => .ok true
    onCommandPresent := false
    onCommandOutcome := fun _ => .ok none
    sendMessageOutcome := fun _ => .ok ()
    upsertPairingOutcome := fun _ => .ok (none, false)
    onMessagePresent := true
    onMessageOutcome := .ok ()
    audioOutcome := .ok ()
    imageOutcome := .ok ()
    reactionOutcome := .ok () }

/-- C3 environment after the key finally arrives: e1 decrypts to a text
message. -/
def c3envHit : AdapterEnv :=
  { c3envMiss with
    clear := fun id =>
      if id = "e1" then some ⟨some "m.text", some "hello", none, none, none⟩ else none }

/-- C3 counterexample: the sweep at 600000 ms evicts the still-encrypted
entry e1 (older than the 5-minute window) without dispatching it, yet
when a key that decrypts e1 arrives afterwards, the one-shot
Event.decrypted listener registered at receipt (adapter lines 526-536)
still dispatches e1 to message processing — refuting the claim that after
eviction the event is never dispatched even if a decrypting key arrives
later. -/
theorem c3_evicted_event_still_dispatched :
    (retryPendingDecryptions c3envMiss 600000 [("e1", c3evt)]).1 = [] ∧
    (retryPendingDecryptions c3envMiss 600000 [("e1", c3evt)]).2 = [] ∧
    (fireDecrypted c3envHit ⟨true, [], ["e1"]⟩ c3evt).2 =
      [⟨"e1", "r1", false,
        some (mkInbound c3room c3evt "@alice:hs" "hello")⟩] := by
  refine ⟨by decide, by decide, by decide⟩

/-- C3 (amended): a pending entry that is still undecryptable at sweep
time and older than the 5-minute retention window is dropped by that
sweep exactly once and without being dispatched, and once absent from the
live pending set no later sweep (over entries with other event ids) can
dispatch or resurrect it.  Dispatch after eviction remains possible only
through the one-shot Event.decrypted listener registered at receipt,
which does not consult the pending set. -/
theorem c3_eviction_final (env : AdapterEnv) (now : Nat) (pending : PMap)
    (hnodup : nodupKeys pending) (p : String × MEvent) (hp : p ∈ pending)
    (hclear : env.clear p.2.eventId = none)
    (hold : 300000 < now - p.2.ts) :
    p ∉ (retryPendingDecryptions env now pending).1 ∧
    (∀ d ∈ (retryPendingDecryptions env now pending).2, d.eventId ≠ p.2.eventId) ∧
    (∀ (env2 : AdapterEnv) (now2 : Nat) (pending2 : PMap), nodupKeys pending2 →
      (∀ q ∈ pending2, q.2.eventId ≠ p.2.eventId) →
      p ∉ (retryPendingDecryptions env2 now2 pending2).1 ∧
      ∀ d ∈ (retryPendingDecryptions env2 now2 pending2).2, d.eventId ≠ p.2.eventId) := by
  have hne : pending ≠ [] := by
    intro h
    rw [h] at hp
    simp at hp
  rw [retryPendingDecryptions_char env now pending hnodup hne]
  refine ⟨?_, ?_, ?_⟩
  · intro hmem
    rw [List.mem_filter] at hmem
    have hage := of_decide_eq_true hmem.2
    omega
  · intro d hd hde
    obtain ⟨q, hq, c, room, hqc, hqr, hqd⟩ := mem_flatMap_dispatches env pending d hd
    rw [hqd, mkDispatch_eventId] at hde
    rw [hde, hclear] at hqc
    exact Option.noConfusion hqc
  · intro env2 now2 pending2 hnodup2 hids
    cases hpe : pending2 with
    | nil =>
      constructor
      · intro hmem
        simp [retryPendingDecryptions] at hmem
      · intro d hd
        simp [retryPendingDecryptions] at hd
    | cons a l =>
      rw [← hpe]
      have hne2 : pending2 ≠ [] := by
        rw [hpe]
        simp
      rw [retryPendingDecryptions_char env2 now2 pending2 hnodup2 hne2]
      constructor
      · intro hmem
        rw [List.mem_filter] at hmem
        have h1 := (mem_flatMap_reinserts env2 pending2 p).mp hmem.1
        exact hids p h1.1 rfl
      · intro d hd hde
        obtain ⟨q, hq, c, room, hqc, hqr, hqd⟩ := mem_flatMap_dispatches env2 pending2 d hd
        rw [hqd, mkDispatch_eventId] at hde
        exact hids q hq hde

/-- Witness for the amended C3 at the concrete evicted entry. -/
theorem c3_eviction_final_witness :
    ("e1", c3evt) ∉ (retryPendingDecryptions c3envMiss 600000 [("e1", c3evt)]).1 ∧
    ∀ d ∈ (retryPendingDecryptions c3envMiss 600000 [("e1", c3evt)]).2,
      d.eventId ≠ c3evt.eventId := by
  have h := c3_eviction_final c3envMiss 600000 [("e1", c3evt)]
    (List.pairwise_singleton _ _) ("e1", c3evt) (by simp) rfl (by decide)
  exact ⟨h.1, h.2.1⟩

/-- C4 concrete event: decrypted by sweep time, but its room is no longer
known to the client. -/
def c4evt : MEvent := ⟨"e2", "m.room.encrypted", some "@alice:hs", "gone", 0,
  ⟨none, none, some "sk", some "sess", some "alg"⟩⟩

/-- C4 environment: the clear content of e2 is present, but
`client.getRoom` finds no room for it. -/
def c4env : AdapterEnv :=
  { ourUserId := some "@bot:hs"
    clear := fun id =>
      if id = "e2" then some ⟨some "m.text", some "hi", none, none, none⟩ else none
    getRoom := fun _ => none
    selfChatMode := true
    dmPolicy := "open"
    allowedUsers := []
    isUserAllowedOutcome := fun _ => .ok true
    onCommandPresent := false
    onCommandOutcome := fun _ => .ok none
    sendMessageOutcome := fun _ => .ok ()
    upsertPairingOutcome := fun _ => .ok (none, false)
    onMessagePresent := true
    onMessageOutcome := .ok ()
    audioOutcome := .ok ()
    imageOutcome := .ok ()
    reactionOutcome := .ok () }

/-- C4 counterexample: the clear content of the snapshotted entry is
present, yet the sweep neither dispatches the event (the room lookup at
adapter line 444 returns null) nor reinserts it — the entry is silently
dropped, refuting the claim that a present clear content always leads to
a dispatch and an absent one always to a reinsertion. -/
theorem c4_clear_present_room_unknown_drop :
    c4env.clear c4evt.eventId =
      some ⟨some "m.text", some "hi", none, none, none⟩ ∧
    (retryPendingDecryptions c4env 0 [("e2", c4evt)]).2 = [] ∧
    (retryPendingDecryptions c4env 0 [("e2", c4evt)]).1 = [] := by
  refine ⟨by decide, by decide, by decide⟩

/-- C4 (amended): a sweep snapshots the pending set, clears it, and for
each snapshotted entry: if the clear content is absent the entry is
reinserted (kept only while inside the retention window) and not
dispatched; if the clear content is present and the room is found the
event is dispatched through handleMessageEvent — the entry is removed on
a normal dispatch and reinserted when the dispatch throws; if the clear
content is present but the room is unknown the entry is dropped without
dispatch. -/
theorem c4_sweep_outcomes (env : AdapterEnv) (now : Nat) (pending : PMap)
    (hnodup : nodupKeys pending) (hkeys : ∀ q ∈ pending, q.1 = q.2.eventId)
    (p : String × MEvent) (hp : p ∈ pending) :
    (env.clear p.2.eventId = none →
      ((p ∈ (retryPendingDecryptions env now pending).1 ↔ now - p.2.ts ≤ 300000) ∧
       ∀ d ∈ (retryPendingDecryptions env now pending).2, d.eventId ≠ p.2.eventId)) ∧
    (∀ c, env.clear p.2.eventId = some c → env.getRoom p.2.roomId = none →
      (p ∉ (retryPendingDecryptions env now pending).1 ∧
       ∀ d ∈ (retryPendingDecryptions env now pending).2, d.eventId ≠ p.2.eventId)) ∧
    (∀ c room r, env.clear p.2.eventId = some c →
      env.getRoom p.2.roomId = some room →
      handleMessageEvent env p.2 room = .ok r →
      (mkDispatch env p.2 room ∈ (retryPendingDecryptions env now pending).2 ∧
       p ∉ (retryPendingDecryptions env now pending).1)) ∧
    (∀ c room er, env.clear p.2.eventId = some c →
      env.getRoom p.2.roomId = some room →
      handleMessageEvent env p.2 room = .error er →
      (mkDispatch env p.2 room ∈ (retryPendingDecryptions env now pending).2 ∧
       (mkDispatch env p.2 room).threw = true ∧
       (p ∈ (retryPendingDecryptions env now pending).1 ↔ now - p.2.ts ≤ 300000))) := by
  have hne : pending ≠ [] := by
    intro h
    rw [h] at hp
    simp at hp
  rw [retryPendingDecryptions_char env now pending hnodup hne]
  have huniq : ∀ q ∈ pending, q.2.eventId = p.2.eventId → q = p := by
    intro q hq hqe
    refine nodupKeys_entry_unique hnodup hq hp ?_
    rw [hkeys q hq, hkeys p hp, hqe]
  refine ⟨?_, ?_, ?_, ?_⟩
  · intro hc
    have hre : retryReinserts env p = [p] := by
      rw [retryReinserts, hc]
    constructor
    · rw [List.mem_filter, mem_flatMap_reinserts]
      constructor
      · intro h
        exact of_decide_eq_true h.2
      · intro h
        exact ⟨⟨hp, hre⟩, decide_eq_true h⟩
    · intro d hd hde
      obtain ⟨q, hq, c, room, hqc, hqr, hqd⟩ := mem_flatMap_dispatches env pending d hd
      rw [hqd, mkDispatch_eventId] at hde
      rw [hde, hc] at hqc
      exact Option.noConfusion hqc
  · intro c hc hr
    have hre : retryReinserts env p = [] := by
      rw [retryReinserts, hc, hr]
    constructor
    · intro hmem
      rw [List.mem_filter, mem_flatMap_reinserts] at hmem
      rw [hmem.1.2] at hre
      exact List.noConfusion hre
    · intro d hd hde
      obtain ⟨q, hq, c2, room, hqc, hqr, hqd⟩ := mem_flatMap_dispatches env pending d hd
      rw [hqd, mkDispatch_eventId] at hde
      have hqp : q = p := huniq q hq hde
      rw [hqp, hr] at hqr
      exact Option.noConfusion hqr
  · intro c room r hc hr hm
    have hre : retryReinserts env p = [] := by
      simp [retryReinserts, hc, hr, hm]
    constructor
    · exact mem_dispatches_of_entry env pending p hp room hr c hc
    · intro hmem
      rw [List.mem_filter, mem_flatMap_reinserts] at hmem
      rw [hmem.1.2] at hre
      exact List.noConfusion hre
  · intro c room er hc hr hm
    have hre : retryReinserts env p = [p] := by
      simp [retryReinserts, hc, hr, hm]
    refine ⟨mem_dispatches_of_entry env pending p hp room hr c hc, ?_, ?_⟩
    · rw [mkDispatch, hm]
    · rw [List.mem_filter, mem_flatMap_reinserts]
      constructor
      · intro h
        exact of_decide_eq_true h.2
      · intro h
        exact ⟨⟨hp, hre⟩, decide_eq_true h⟩

/-- C4 concrete success-case fixtures: a decryptable entry in a known
room. -/
def c4okEvt : MEvent := ⟨"e3", "m.room.encrypted", some "@alice:hs", "r3", 0,
  ⟨none, none, some "sk", some "sess", some "alg"⟩⟩

def c4okRoom : RoomT := ⟨"r3", "room three", 2⟩

def c4okEnv : AdapterEnv :=
  { c4env with
    clear := fun id =>
      if id = "e3" then some ⟨some "m.text", some "hey", none, none, none⟩ else none
    getRoom := fun rid => if rid = "r3" then some c4okRoom else none }

/-- Witness for the amended C4: a decryptable entry in a known room is
dispatched by the sweep and removed from the pending set. -/
theorem c4_sweep_outcomes_witness :
    mkDispatch c4okEnv c4okEvt c4okRoom ∈
      (retryPendingDecryptions c4okEnv 1000 [("e3", c4okEvt)]).2 ∧
    ("e3", c4okEvt) ∉ (retryPendingDecryptions c4okEnv 1000 [("e3", c4okEvt)]).1 := by
  have h := (c4_sweep_outcomes c4okEnv 1000 [("e3", c4okEvt)]
    (List.pairwise_singleton _ _)
    (by intro q hq; rw [List.mem_singleton] at hq; subst hq; rfl)
    ("e3", c4okEvt) (by simp)).2.2.1
  exact h ⟨some "m.text", some "hey", none, none, none⟩ c4okRoom
    (some (mkInbound c4okRoom c4okEvt "@alice:hs" "hey"))
    (by decide) (by decide) (by decide)

/-- C5 concrete fixtures: a decryptable pending event whose room the
client no longer knows. -/
def c5dropEvt : MEvent := ⟨"e4", "m.room.encrypted", some "@alice:hs", "gone", 0,
  ⟨none, none, some "sk", some "sess", some "alg"⟩⟩

def c5dropEnv : AdapterEnv :=
  { ourUserId := some "@bot:hs"
    clear := fun id =>
      if id = "e4" then some ⟨some "m.text", some "yo", none, none, none⟩ else none
    getRoom := fun _ => none
    selfChatMode := true
    dmPolicy := "open"
    allowedUsers := []
    isUserAllowedOutcome := fun _ => .ok true
    onCommandPresent := false
    onCommandOutcome := fun _ => .ok none
    sendMessageOutcome := fun _ => .ok ()
    upsertPairingOutcome := fun _ => .ok (none, false)
    onMessagePresent := true
    onMessageOutcome := .ok ()
    audioOutcome := .ok ()
    imageOutcome := .ok ()
    reactionOutcome := .ok () }

/-- C5 counterexample: a pending event that has become decryptable by
sweep time is nonetheless not dispatched by the sweep — the room lookup
at adapter line 444 fails, so `handleMessageEvent` is never invoked for
it (the dispatch list stays empty), refuting the claim that every
decryptable pending event is dispatched through the message-processing
entry point. -/
theorem c5_decryptable_not_dispatched :
    c5dropEnv.clear c5dropEvt.eventId =
      some ⟨some "m.text", some "yo", none, none, none⟩ ∧
    (retryPendingDecryptions c5dropEnv 0 [("e4", c5dropEvt)]).2 = [] ∧
    (retryPendingDecryptions c5dropEnv 0 [("e4", c5dropEvt)]).1 = [] := by
  refine ⟨by decide, by decide, by decide⟩

/-- C5 (amended): a pending encrypted event that has become decryptable
by sweep time and whose room is still known to the client is dispatched
by the sweep through the very same entry point that immediate decryption
uses — `handleMessageEvent` reading the clear content — so the dispatch
record coincides with the one the timeline handler would produce for the
same event delivered decrypted, carrying the identical forwarded message;
when the dispatch completes without throwing, the entry is removed from
the pending set. -/
theorem c5_sweep_refines_immediate (env : AdapterEnv) (now : Nat)
    (pending : PMap) (hnodup : nodupKeys pending)
    (p : String × MEvent) (hp : p ∈ pending)
    (c : ContentT) (hc : env.clear p.2.eventId = some c)
    (room : RoomT) (hr : env.getRoom p.2.roomId = some room)
    (res : Option InboundMessage)
    (hm : handleMessageEvent env p.2 room = .ok res)
    (henc : p.2.eventType = "m.room.encrypted")
    (hown : isOwnSender env p.2 = false) :
    mkDispatch env p.2 room ∈ (retryPendingDecryptions env now pending).2 ∧
    mkDispatch env p.2 room = ⟨p.2.eventId, room.roomId, false, res⟩ ∧
    (∀ st : TLState, st.initialSyncDone = true →
      timelineHandler env now st p.2 (some room) false =
        ⟨st, [mkDispatch env p.2 room], false, false⟩) ∧
    p ∉ (retryPendingDecryptions env now pending).1 := by
  have hne : pending ≠ [] := by
    intro h
    rw [h] at hp
    simp at hp
  have hre : retryReinserts env p = [] := by
    simp [retryReinserts, hc, hr, hm]
  refine ⟨?_, ?_, ?_, ?_⟩
  · rw [retryPendingDecryptions_char env now pending hnodup hne]
    exact mem_dispatches_of_entry env pending p hp room hr c hc
  · rw [mkDispatch, hm]
  · intro st hst
    have hclear : (getClearContent env p.2).isNone = false := by
      rw [getClearContent, hc]
      rfl
    simp [timelineHandler, henc, hown, hclear, hst]
  · rw [retryPendingDecryptions_char env now pending hnodup hne]
    intro hmem
    rw [List.mem_filter, mem_flatMap_reinserts] at hmem
    rw [hmem.1.2] at hre
    exact List.noConfusion hre

/-- C5 success-case fixtures for the witness. -/
def c5evt : MEvent := ⟨"e5", "m.room.encrypted", some "@alice:hs", "r5", 7,
  ⟨none, none, some "sk", some "sess", some "alg"⟩⟩

def c5room : RoomT := ⟨"r5", "room five", 2⟩

def c5env : AdapterEnv :=
  { c5dropEnv with
    clear := fun id =>
      if id = "e5" then some ⟨some "m.text", some "later", none, none, none⟩ else none
    getRoom := fun rid => if rid = "r5" then some c5room else none }

/-- Witness for the amended C5 at a concrete decryptable entry. -/
theorem c5_sweep_refines_immediate_witness :
    mkDispatch c5env c5evt c5room ∈
      (retryPendingDecryptions c5env 1000 [("e5", c5evt)]).2 ∧
    timelineHandler c5env 1000 ⟨true, [], []⟩ c5evt (some c5room) false =
      ⟨⟨true, [], []⟩, [mkDispatch c5env c5evt c5room], false, false⟩ ∧
    ("e5", c5evt) ∉ (retryPendingDecryptions c5env 1000 [("e5", c5evt)]).1 := by
  have h := c5_sweep_refines_immediate c5env 1000 [("e5", c5evt)]
    (List.pairwise_singleton _ _) ("e5", c5evt) (by simp)
    ⟨some "m.text", some "later", none, none, none⟩ (by decide)
    c5room (by decide)
    (some (mkInbound c5room c5evt "@alice:hs" "later")) (by decide)
    rfl (by decide)
  exact ⟨h.1, h.2.2.1 ⟨true, [], []⟩ rfl, h.2.2.2⟩

/-- C10: a timeline event whose sender is the bot's own user id is skipped
by the timeline handler before any classification — the state is
untouched, nothing is dispatched to `handleMessageEvent` (so `onMessage`
is never invoked for it), no listener is registered and no key is
requested — and, independently, `handleTextMessage` returns null for any
event whose sender equals the `ourUserId` it is given. -/
theorem c10_own_sender_never_processed (env : AdapterEnv) (now : Nat)
    (st : TLState) (e : MEvent) (room : Option RoomT) (toStart : Bool)
    (s : String) (h1 : e.sender = some s) (h2 : env.ourUserId = some s) :
    timelineHandler env now st e room toStart = ⟨st, [], false, false⟩ ∧
    ∀ room' : RoomT, handleTextMessage env room' e s = .ok none := by
  constructor
  · have hown : isOwnSender env e = true := by
      simp [isOwnSender, h1, h2]
    by_cases hskip :
        e.eventType ≠ "m.room.encrypted" ∧ (toStart = true ∨ st.initialSyncDone = false)
    · simp [timelineHandler, hskip]
    · simp [timelineHandler, hskip, hown]
  · intro room'
    rcases hb : (getContent env e).body with _ | b
    · simp [handleTextMessage, h1, hb]
    · by_cases hse : s = "" ∨ b = ""
      · simp [handleTextMessage, h1, hb, hse]
      · simp [handleTextMessage, h1, hb, hse]

/-- C10 concrete fixtures: a text event sent by the bot itself. -/
def c10evt : MEvent := ⟨"e6", "m.room.message", some "@bot:hs", "r6", 3,
  ⟨some "m.text", some "own message", none, none, none⟩⟩

def c10room : RoomT := ⟨"r6", "room six", 2⟩

def c10env : AdapterEnv :=
  { ourUserId := some "@bot:hs"
    clear := fun _ => none
    getRoom := fun rid => if rid = "r6" then some c10room else none
    selfChatMode := true
    dmPolicy := "open"
    allowedUsers := []
    isUserAllowedOutcome := fun _ => .ok true
    onCommandPresent := false
    onCommandOutcome := fun _ => .ok none
    sendMessageOutcome := fun _ => .ok ()
    upsertPairingOutcome := fun _ => .ok (none, false)
    onMessagePresent := true
    onMessageOutcome := .ok ()
    audioOutcome := .ok ()
    imageOutcome := .ok ()
    reactionOutcome := .ok () }

/-- Witness for C10 at a concrete own-sender event. -/
theorem c10_own_sender_never_processed_witness :
    timelineHandler c10env 0 ⟨true, [], []⟩ c10evt (some c10room) false =
      ⟨⟨true, [], []⟩, [], false, false⟩ ∧
    handleTextMessage c10env c10room c10evt "@bot:hs" = .ok none := by
  have h := c10_own_sender_never_processed c10env 0 ⟨true, [], []⟩ c10evt
    (some c10room) false "@bot:hs" rfl rfl
  exact ⟨h.1, h.2 c10room⟩

/-- Environment of `restoreKeysFromBackup` (adapter lines 818-873): the
guards and the outcomes of the awaited backup calls.  `checkOutcome` is
`checkKeyBackupAndEnable` (ok true means a backup info object was
returned); `restoreOutcome` is `restoreKeyBackup` (the ok value is the
`imported` key count). -/
structure BackupEnv where
  clientPresent : Bool
  recoveryKeyConfigured : Bool
  cryptoPresent : Bool
  decodeOutcome : Except Unit Unit
  storeKeyOutcome : Except Unit Unit
  checkOutcome : Except Unit Bool
  restoreOutcome : Except Unit Nat

/-- Shallow embedding of `MatrixAdapter.restoreKeysFromBackup` (adapter
lines 818-873), reduced to its observable effect on the retry pipeline:
whether `retryPendingDecryptions` is invoked.  Every failing await is
caught at the catch written in the source (restore: 856-859, check:
863-865, outer: 870-872); the store of the backup key ignores its own
failure (834-836).  The current pending set plays no role in the
decision. -/
def restoreKeysFromBackup (env : BackupEnv) (pending : PMap) : Bool :=
  if env.clientPresent = false ∨ env.recoveryKeyConfigured = false then false
  else if env.cryptoPresent = false then false
  else
    match env.decodeOutcome with
    | .error _ => false
    | .ok _ =>
      match env.checkOutcome with
      | .error _ => false
      | .ok false => false
      | .ok true =>
        match env.restoreOutcome with
        | .error _ => false
        | .ok imported => decide (0 < imported)

/-- C6: the retry sweep is invoked by `restoreKeysFromBackup` exactly when
the client, recovery key and crypto are present, the recovery key
decodes, `checkKeyBackupAndEnable` returns a trusted backup, and
`restoreKeyBackup` succeeds importing at least one key — in particular a
restore importing zero keys never triggers the sweep — and the decision
is independent of whether any event is currently pending. -/
theorem c6_restore_triggers_sweep (env : BackupEnv) (pending : PMap) :
    (restoreKeysFromBackup env pending = true ↔
      (env.clientPresent = true ∧ env.recoveryKeyConfigured = true ∧
       env.cryptoPresent = true ∧ env.decodeOutcome = .ok () ∧
       env.checkOutcome = .ok true ∧
       ∃ n, env.restoreOutcome = .ok n ∧ 0 < n)) ∧
    restoreKeysFromBackup env pending = restoreKeysFromBackup env [] := by
  constructor
  · constructor
    · intro h
      simp only [restoreKeysFromBackup] at h
      by_cases h1 : env.clientPresent = false ∨ env.recoveryKeyConfigured = false
      · rw [if_pos h1] at h
        exact absurd h (by simp)
      · rw [if_neg h1] at h
        push_neg at h1
        by_cases h2 : env.cryptoPresent = false
        · rw [if_pos h2] at h
          exact absurd h (by simp)
        · rw [if_neg h2] at h
          rcases hd : env.decodeOutcome with u | u <;> rw [hd] at h
          · exact absurd h (by simp)
          · rcases hc : env.checkOutcome with u2 | b <;> rw [hc] at h
            · exact absurd h (by simp)
            · cases b with
              | false => exact absurd h (by simp)
              | true =>
                rcases hr : env.restoreOutcome with u3 | n <;> rw [hr] at h
                · exact absurd h (by simp)
                · refine ⟨by simpa using h1.1, by simpa using h1.2,
                    by simpa using h2, by cases u; rfl, rfl, n, rfl, ?_⟩
                  exact of_decide_eq_true h
    · intro ⟨h1, h2, h3, h4, h5, n, h6, h7⟩
      simp [restoreKeysFromBackup, h1, h2, h3, h4, h5, h6, h7]
  · rfl

/-- Environment of `initiateProactiveVerification` (adapter lines
940-1053): presence guards, the configured direct device id, and the
outcomes of the awaited calls.  `fetchOutcome i` is the device list
returned by the i-th `getUserDeviceInfo` call of the discovery loop
(0-based); `statusOutcome d` is `getDeviceVerificationStatus` for device
d (`none` models an undefined status object); `requestOutcome d` is
`requestDeviceVerification` for device d. -/
structure ProEnv where
  clientPresent : Bool
  handlerPresent : Bool
  cryptoPresent : Bool
  userId : Option String
  ownDeviceId : Option String
  userDeviceIdCfg : Option String
  directOutcome : Except Unit Unit
  fetchOutcome : Nat → Except Unit (List String)
  statusOutcome : String → Except Unit (Option Bool)
  requestOutcome : String → Except Unit Unit

/-- Observable result of `initiateProactiveVerification`: the devices for
which a verification request resolved, the devices for which one was
attempted, and the number of discovery fetches performed. -/
structure ProOut where
  issued : List String
  attempted : List String
  fetches : Nat
  deriving DecidableEq, Repr

/-- The discovery loop of adapter lines 979-1001: up to `k` more fetch
attempts (5 at the top call), a 3-second backoff after each empty result;
stops at the first non-empty device list.  An `.error` carries the number
of fetches made when `getUserDeviceInfo` rejected (the outer catch then
ends the routine). -/
def discoverDevices (env : ProEnv) : Nat → Nat → Except Nat (List String × Nat)
  | 0, fetches => .ok ([], fetches)
  | k + 1, fetches =>
    match env.fetchOutcome fetches with
    | .error _ => .error (fetches + 1)
    | .ok ds =>
      if ds.isEmpty then discoverDevices env k (fetches + 1) else .ok (ds, fetches + 1)

/-- The per-device loop of adapter lines 1011-1042: skip the bot's own
device, skip devices already verified, request verification for the rest;
a rejected request is caught and the loop continues (lines 1039-1041),
while a throw from the status lookup escapes to the outer catch — the
`.error` carries the (issued, attempted) lists accumulated so far. -/
def verifyDevices (env : ProEnv) (own : Option String) :
    List String → Except (List String × List String) (List String × List String)
  | [] => .ok ([], [])
  | d :: ds =>
    if some d = own then verifyDevices env own ds
    else
      match env.statusOutcome d with
      | .error _ => .error ([], [])
      | .ok st =>
        if st = some true then verifyDevices env own ds
        else
          match env.requestOutcome d with
          | .ok _ =>
            match verifyDevices env own ds with
            | .ok (i, a) => .ok (d :: i, d :: a)
            | .error (i, a) => .error (d :: i, d :: a)
          | .error _ =>
            match verifyDevices env own ds with
            | .ok (i, a) => .ok (i, d :: a)
            | .error (i, a) => .error (i, d :: a)

/-- The discovery-then-verify phase (adapter lines 977-1049), entered when
no usable direct device id is configured or the direct request failed;
`preIssued`/`preAttempted` carry the effect of a failed direct attempt.
The outer catch (lines 1050-1052) keeps whatever was done before a
throw. -/
def discoveryPhase (env : ProEnv) (preIssued preAttempted : List String) : ProOut :=
  match discoverDevices env 5 0 with
  | .error fetches => ⟨preIssued, preAttempted, fetches⟩
  | .ok (ds, fetches) =>
    if ds.isEmpty then ⟨preIssued, preAttempted, fetches⟩
    else
      match verifyDevices env env.ownDeviceId ds with
      | .ok (i, a) => ⟨preIssued ++ i, preAttempted ++ a, fetches⟩
      | .error (i, a) => ⟨preIssued ++ i, preAttempted ++ a, fetches⟩

/-- Shallow embedding of `MatrixAdapter.initiateProactiveVerification`
(adapter lines 940-1053): guards, then the configured-device fast path
(lines 954-975) — a no-op when the trimmed configured id equals the bot's
own device id, a single direct verification request otherwise, falling
back to discovery only when that request rejects — and otherwise the
discovery phase. -/
def initiateProactiveVerification (env : ProEnv) : ProOut :=
  if env.clientPresent = false ∨ env.handlerPresent = false then ⟨[], [], 0⟩
  else if env.cryptoPresent = false then ⟨[], [], 0⟩
  else
    match env.userId with
    | none => ⟨[], [], 0⟩
    | some _ =>
      match env.userDeviceIdCfg with
      | some cfg =>
        if (strTrim cfg).data.isEmpty then discoveryPhase env [] []
        else if some (strTrim cfg) = env.ownDeviceId then ⟨[], [], 0⟩
        else
          match env.directOutcome with
          | .ok _ => ⟨[strTrim cfg], [strTrim cfg], 0⟩
          | .error _ => discoveryPhase env [] [strTrim cfg]
      | none => discoveryPhase env [] []

/-- C8 counterexample fixture: a direct device id "D2" is configured,
distinct from the bot's own device "D1", and the direct request
succeeds. -/
def c8direnv : ProEnv :=
  ⟨true, true, true, some "@u:hs", some "D1", some "D2", .ok (),
    fun _ => .ok ["D1", "DX"], fun _ => .ok (some false), fun _ => .ok ()⟩

/-- C8 counterexample: with a configured direct device id that differs
from the bot's own id and whose direct request succeeds, the routine
performs zero device-list fetches and issues a single request to the
configured device — refuting the claim that in every case other than
"configured id equals own id" the peer's device list is fetched (with up
to 5 attempts) and a request issued per remaining listed device. -/
theorem c8_direct_path_skips_discovery :
    c8direnv.userDeviceIdCfg = some "D2" ∧
    c8direnv.ownDeviceId = some "D1" ∧
    (initiateProactiveVerification c8direnv).fetches = 0 ∧
    (initiateProactiveVerification c8direnv).issued = ["D2"] := by
  refine ⟨rfl, rfl, by decide, by decide⟩

theorem discoverDevices_all_empty (env : ProEnv) :
    ∀ (k fetches : Nat), (∀ i, i < k → env.fetchOutcome (fetches + i) = .ok []) →
    discoverDevices env k fetches = .ok ([], fetches + k) := by
  intro k
  induction k with
  | zero => intro fetches _; rfl
  | succ k ih =>
    intro fetches h
    have h0 : env.fetchOutcome fetches = .ok [] := by
      have := h 0 (Nat.succ_pos k)
      simpa using this
    have hrec := ih (fetches + 1) (by
      intro i hi
      have := h (i + 1) (by omega)
      have harith : fetches + (i + 1) = fetches + 1 + i := by omega
      rwa [harith] at this)
    simp only [discoverDevices, h0, List.isEmpty_nil, if_true]
    rw [hrec]
    have : fetches + 1 + k = fetches + (k + 1) := by omega
    rw [this]

theorem discoverDevices_first_nonempty (env : ProEnv) :
    ∀ (k : Nat) (fetches j : Nat) (ds : List String), j < k →
    (∀ i, i < j → env.fetchOutcome (fetches + i) = .ok []) →
    env.fetchOutcome (fetches + j) = .ok ds → ds ≠ [] →
    discoverDevices env k fetches = .ok (ds, fetches + j + 1) := by
  intro k
  induction k with
  | zero => intro fetches j ds hj; omega
  | succ k ih =>
    intro fetches j ds hj hempty hfound hne
    cases j with
    | zero =>
      have h0 : env.fetchOutcome fetches = .ok ds := by simpa using hfound
      have hdsne : ds.isEmpty = false := by
        cases ds with
        | nil => exact absurd rfl hne
        | cons a l => rfl
      simp [discoverDevices, h0, hdsne]
    | succ j =>
      have h0 : env.fetchOutcome fetches = .ok [] := by
        have := hempty 0 (Nat.succ_pos j)
        simpa using this
      have hrec := ih (fetches + 1) j ds (by omega)
        (by
          intro i hi
          have := hempty (i + 1) (by omega)
          have harith : fetches + (i + 1) = fetches + 1 + i := by omega
          rwa [harith] at this)
        (by
          have harith : fetches + (j + 1) = fetches + 1 + j := by omega
          rwa [harith] at hfound)
        hne
      simp only [discoverDevices, h0, List.isEmpty_nil, if_true]
      rw [hrec]
      have : fetches + 1 + j + 1 = fetches + (j + 1) + 1 := by omega
      rw [this]

theorem verifyDevices_all_resolve (env : ProEnv) (own : Option String)
    (vstat : String → Bool)
    (hstat : ∀ d, env.statusOutcome d = .ok (some (vstat d)))
    (hreq : ∀ d, env.requestOutcome d = .ok ()) :
    ∀ ds : List String,
      verifyDevices env own ds =
        .ok (ds.filter (fun d => decide (some d ≠ own) && !(vstat d)),
             ds.filter (fun d => decide (some d ≠ own) && !(vstat d))) := by
  intro ds
  induction ds with
  | nil => rfl
  | cons d ds ih =>
    by_cases hown : some d = own
    · simp [verifyDevices, hown, List.filter_cons, ih]
    · rcases hv : vstat d with _ | _
      · have hst : ¬ ((some (vstat d) : Option Bool) = some true) := by
          rw [hv]
          simp
        simp [verifyDevices, hown, hstat d, hst, hreq d, ih, List.filter_cons, hv]
      · have hst : ((some (vstat d) : Option Bool) = some true) := by rw [hv]
        simp [verifyDevices, hown, hstat d, hst, ih, List.filter_cons, hv]

/-- C8 (amended): proactive verification behaves as follows.  With a
configured direct device id (non-blank after trimming): if it equals the
bot's own device id the routine is a no-op issuing no requests and
fetching nothing; otherwise a single direct verification request is
issued to it and, when that request succeeds, no device-list discovery
runs.  Without a usable configured id, the device list is fetched with up
to 5 attempts separated by a 3-second backoff while empty: if all 5
fetches return an empty list no request is issued; otherwise, for the
first non-empty list, a verification request is issued per device except
the bot's own device and devices already verified. -/
theorem c8_proactive_verification (env : ProEnv)
    (hc : env.clientPresent = true) (hh : env.handlerPresent = true)
    (hcr : env.cryptoPresent = true) (u : String) (hu : env.userId = some u) :
    (∀ cfg, env.userDeviceIdCfg = some cfg → (strTrim cfg).data ≠ [] →
      some (strTrim cfg) = env.ownDeviceId →
      initiateProactiveVerification env = ⟨[], [], 0⟩) ∧
    (∀ cfg, env.userDeviceIdCfg = some cfg → (strTrim cfg).data ≠ [] →
      some (strTrim cfg) ≠ env.ownDeviceId → env.directOutcome = .ok () →
      initiateProactiveVerification env = ⟨[strTrim cfg], [strTrim cfg], 0⟩) ∧
    (env.userDeviceIdCfg = none → (∀ i, i < 5 → env.fetchOutcome i = .ok []) →
      initiateProactiveVerification env = ⟨[], [], 5⟩) ∧
    (∀ j ds (vstat : String → Bool), env.userDeviceIdCfg = none → j < 5 →
      (∀ i, i < j → env.fetchOutcome i = .ok []) →
      env.fetchOutcome j = .ok ds → ds ≠ [] →
      (∀ d, env.statusOutcome d = .ok (some (vstat d))) →
      (∀ d, env.requestOutcome d = .ok ()) →
      initiateProactiveVerification env =
        ⟨ds.filter (fun d => decide (some d ≠ env.ownDeviceId) && !(vstat d)),
         ds.filter (fun d => decide (some d ≠ env.ownDeviceId) && !(vstat d)),
         j + 1⟩) := by
  have hguard1 : ¬ (env.clientPresent = false ∨ env.handlerPresent = false) := by
    simp [hc, hh]
  refine ⟨?_, ?_, ?_, ?_⟩
  · intro cfg hcfg hblank hown
    have hbe : (strTrim cfg).data.isEmpty = false := by
      cases hd : (strTrim cfg).data with
      | nil => exact absurd hd hblank
      | cons a l => rfl
    simp [initiateProactiveVerification, hguard1, hcr, hu, hcfg, hbe, hown]
  · intro cfg hcfg hblank hown hdir
    have hbe : (strTrim cfg).data.isEmpty = false := by
      cases hd : (strTrim cfg).data with
      | nil => exact absurd hd hblank
      | cons a l => rfl
    simp [initiateProactiveVerification, hguard1, hcr, hu, hcfg, hbe, hown, hdir]
  · intro hcfg hempty
    have hdisc := discoverDevices_all_empty env 5 0 (by
      intro i hi
      simpa using hempty i hi)
    simp [initiateProactiveVerification, hguard1, hcr, hu, hcfg, discoveryPhase, hdisc]
  · intro j ds vstat hcfg hj hempty hfound hne hstat hreq
    have hdisc := discoverDevices_first_nonempty env 5 0 j ds hj
      (by intro i hi; simpa using hempty i hi) (by simpa using hfound) hne
    have hdsne : ds.isEmpty = false := by
      cases ds with
      | nil => exact absurd rfl hne
      | cons a l => rfl
    have hver := verifyDevices_all_resolve env env.ownDeviceId vstat hstat hreq ds
    simp [initiateProactiveVerification, hguard1, hcr, hu, hcfg, discoveryPhase,
      hdisc, hdsne, hver]

/-- C8 witness fixture: the spec scenario — four empty fetches, a
non-empty list on the fifth containing two peer devices and the bot's own
device. -/
def c8wenv : ProEnv :=
  ⟨true, true, true, some "@u:hs", some "D1", none, .ok (),
    fun i => if i < 4 then .ok [] else .ok ["DA", "DB", "D1"],
    fun _ => .ok (some false), fun _ => .ok ()⟩

/-- Witness for the amended C8: requests are issued for both non-own
devices found on the fifth fetch attempt; the bot's own device is
skipped. -/
theorem c8_proactive_verification_witness :
    initiateProactiveVerification c8wenv = ⟨["DA", "DB"], ["DA", "DB"], 5⟩ := by
  have h := (c8_proactive_verification c8wenv rfl rfl rfl "@u:hs" rfl).2.2.2
    4 ["DA", "DB", "D1"] (fun _ => false) rfl (by decide)
    (by
      intro i hi
      have : i = 0 ∨ i = 1 ∨ i = 2 ∨ i = 3 := by omega
      rcases this with rfl | rfl | rfl | rfl <;> rfl)
    rfl (by decide) (fun d => rfl) (fun d => rfl)
  exact h.trans (by decide)

/-- Embedding of `confirmVerification` (verification.ts lines 297-312)
over the active map: look up the stored session; missing SAS callbacks
make the call a no-op; a rejected `confirm()` is caught and surfaced
through `onError`.  The components are (MAC send attempted, onError
called, exception escaped). -/
def confirmVerificationH (env : VerifEnv) (m : VMap) (key : String) :
    Bool × Bool × Bool :=
  match jsGet m key with
  | none => (false, false, false)
  | some stored =>
    if stored.sasCallbacksPresent = false then (false, false, false)
    else
      match env.confirmOutcome with
      | .ok _ => (true, false, false)
      | .error _ => (false, true, false)

/-- C9: whatever the outcomes of the awaited operations — accept,
device-key fetch, start-verification, verify, confirm, and every
collaborator call made while processing a timeline event — no exception
escapes the verification handlers or the timeline event handler: the
escape flag of `acceptAndStartSAS`, `startSASVerification`,
`confirmVerification` and of the timeline handler is false for every
environment and state, the failures being caught at the handlers' own
catch blocks (and surfaced through logging or the onError callback). -/
theorem c9_failures_stay_local :
    (∀ (env : VerifEnv) (s : SASState),
      (acceptAndStartSASH env s).2 = false ∧
      (startSASVerificationH env s).2 = false) ∧
    (∀ (env : VerifEnv) (m : VMap) (key : String),
      (confirmVerificationH env m key).2.2 = false) ∧
    (∀ (env : AdapterEnv) (now : Nat) (st : TLState) (e : MEvent)
      (room : Option RoomT) (toStart : Bool),
      (timelineHandler env now st e room toStart).escaped = false) := by
  refine ⟨?_, ?_, ?_⟩
  · intro env s
    constructor
    · rcases h : acceptAndStartSASAttempt env s with ⟨s', b⟩
      cases b <;> simp [acceptAndStartSASH, h]
    · rcases h : startSASAttempt env s with ⟨s', b⟩
      cases b <;> simp [startSASVerificationH, h]
  · intro env m key
    rcases h : jsGet m key with _ | stored
    · simp [confirmVerificationH, h]
    · cases hcb : stored.sasCallbacksPresent
      · simp [confirmVerificationH, h, hcb]
      · rcases ho : env.confirmOutcome with u | u <;>
          simp [confirmVerificationH, h, hcb, ho]
  · intro env now st e room toStart
    unfold timelineHandler
    repeat' split <;> try rfl
    all_goals dsimp only
    all_goals repeat' split <;> try rfl

end LettabotMatrix
